import Mathlib

/-!
Shallow embedding of the `api_gateway` middleware and S3 sync service
(`middleware/auth.py`, `middleware/rate_limit.py`, `services/s3_sync_service.py`,
configuration from `main.py`).  Python string operations are modelled on
`List Char` with structural recursion so that all definitions evaluate inside
the kernel; external effects (JWT decoding, the database session, S3 listings
and clocks) are passed explicitly as parameters.
-/

/-! ### Python string primitives

Python `s.startswith(p)`, `p in s`, `s.split(p)`, `s.replace(a, b)` and
`s.endswith(p)` modelled on character lists. -/

/-- Removes `pat` from the front of `l`, or `none` when `l` does not start with `pat`. -/
def stripPre? : List Char → List Char → Option (List Char)
  | [], l => some l
  | _ :: _, [] => none
  | p :: ps, c :: cs => if c = p then stripPre? ps cs else none

/-- Python `l.startswith(pat)`. -/
def listStartsWith (l pat : List Char) : Bool :=
  (stripPre? pat l).isSome

/-- Python `s.startswith(p)`. -/
def pyStartsWith (s p : String) : Bool :=
  listStartsWith s.data p.data

/-- Python `s.endswith(p)`. -/
def pyEndsWith (s p : String) : Bool :=
  listStartsWith s.data.reverse p.data.reverse

/-- Splitting on a non-empty separator, with fuel for structural termination;
`cur` accumulates the current chunk in reverse. -/
def splitChars (pat : List Char) : Nat → List Char → List Char → List (List Char)
  | _, [], cur => [cur.reverse]
  | 0, l, cur => [cur.reverse ++ l]
  | fuel + 1, c :: cs, cur =>
    match stripPre? pat (c :: cs) with
    | some rest => cur.reverse :: splitChars pat fuel rest []
    | none => splitChars pat fuel cs (c :: cur)

/-- Python `s.split(sep)` for a non-empty separator. -/
def pySplit (s sep : String) : List String :=
  (splitChars sep.data s.data.length s.data []).map (fun l => String.mk l)

/-- Python `s.replace(old, new)` for a non-empty `old`,
via the identity `s.replace(old, new) = new.join(s.split(old))`. -/
def pyReplace (s old new : String) : String :=
  String.intercalate new (pySplit s old)

/-- Python truthiness of an optional string: `None` and `""` are falsy. -/
def pyFalsyStr : Option String → Bool
  | none => true
  | some s => s = ""

/-- Pointwise update of a string-keyed map (Python dictionary assignment). -/
def updFun {α : Type} (m : String → α) (k : String) (v : α) : String → α :=
  fun q => if q = k then v else m q

/-! ### JWT model (`middleware/auth.py`)

`jwt.decode(token, secret, algorithms=[alg])` is an external library call;
it is abstracted as a parameter `decode : String → Except String Payload`
returning either the decoded claim set or the `PyJWTError` message.
A payload's `exp` claim may be absent (`payload.get("exp")` is then `None`). -/

/-- Decoded JWT claim set: the `exp` claim (a Unix timestamp) may be absent. -/
structure Payload where
  exp : Option Int := none
  username : String := ""
deriving DecidableEq

/-- Outcome of the `get_current_user` dependency: the returned payload, a raised
`HTTPException`, or an uncaught `TypeError` from comparing `None` with a number. -/
inductive UserResult where
  | ok (p : Payload)
  | httpError (status : Nat) (detail : String)
  | typeError
deriving DecidableEq

/-- The `get_current_user` dependency (`auth.py` lines 41-61): decodes the bearer
token; a `PyJWTError` becomes a 401; a present `exp` in the past becomes a 401;
an absent `exp` makes `payload.get("exp") < now` raise `TypeError`, which the
`except jwt.PyJWTError` clause does not catch. -/
def get_current_user (decode : String → Except String Payload) (now : Int)
    (token : String) : UserResult :=
  match decode token with
  | .error _ => .httpError 401 "Invalid authentication credentials"
  | .ok payload =>
    match payload.exp with
    | none => .typeError
    | some e =>
      if e < now then .httpError 401 "Token has expired"
      else .ok payload

/-! ### AuthMiddleware (`middleware/auth.py` lines 76-169) -/

/-- The parts of a Starlette request the middleware reads. -/
structure Request where
  method : String
  path : String
  xApiKey : Option String := none
  authorization : Option String := none
deriving DecidableEq

/-- Result of a middleware `dispatch`: either `call_next` was invoked (with the
value stored into `request.state.user`, if any) or a response was returned. -/
inductive DispatchResult where
  | next (user : Option Payload)
  | response (status : Nat) (content : String)
deriving DecidableEq

/-- AuthMiddleware configuration: the public path list and `settings.API_KEY`. -/
structure AuthConfig where
  public_paths : List String
  apiKey : String

/-- Public paths passed by `main.py` lines 146-158. -/
def mainPublicPaths : List String :=
  ["/health", "/", "/api/auth/login", "/api/auth/refresh",
   "/docs", "/redoc", "/openapi.json", "/test/config"]

/-- Default public paths of `AuthMiddleware.__init__`. -/
def defaultPublicPaths : List String :=
  ["/health", "/", "/api/auth/login", "/api/auth/refresh"]

/-- `AuthMiddleware.dispatch`.  OPTIONS requests and requests whose path starts
with a public path go straight to `call_next`.  Otherwise the `X-API-Key` header
must be non-falsy and equal to the configured key (else 403), and the
`Authorization` header must be present, contain `"Bearer "` (the check
`"Bearer " not in auth_header` holds exactly when the split on `"Bearer "` has a
single part), and carry a token that decodes with a future `exp` (else 401).
A missing `exp` claim raises `TypeError` in `payload.get("exp") < now`, caught
by the final `except Exception` clause as a 401. -/
def authDispatch (cfg : AuthConfig) (decode : String → Except String Payload)
    (now : Int) (req : Request) : DispatchResult :=
  if req.method = "OPTIONS" then .next none
  else if cfg.public_paths.any (fun p => pyStartsWith req.path p) then .next none
  else if pyFalsyStr req.xApiKey || req.xApiKey != some cfg.apiKey then
    .response 403 "Unauthorized: Invalid API key"
  else if pyFalsyStr req.authorization then
    .response 401 "Unauthorized: Missing JWT token"
  else
    let auth_header := req.authorization.getD ""
    let parts := pySplit auth_header "Bearer "
    if parts.length < 2 then
      .response 401 "Unauthorized: Invalid authorization format"
    else
      let token := parts.getD 1 ""
      match decode token with
      | .error e => .response 401 ("Unauthorized: Invalid JWT token - " ++ e)
      | .ok payload =>
        match payload.exp with
        | none => .response 401 "Unauthorized: Error processing JWT token - TypeError"
        | some e =>
          if e < now then .response 401 "Unauthorized: Token has expired"
          else .next (some payload)

/-! ### RateLimitMiddleware (`middleware/rate_limit.py`)

`self.request_counts` is modelled as a total map `String → List Int` defaulting
to `[]`, which absorbs the `if client_ip not in self.request_counts` insertion;
`time.time()` is the explicit parameter `now`. -/

/-- Outcome of `RateLimitMiddleware.dispatch`: the handler was invoked, or the
`HTTPException(429, "Too many requests")` value was returned instead. -/
inductive RLOutcome where
  | forwarded
  | tooMany (status : Nat) (detail : String)
deriving DecidableEq

/-- `RateLimitMiddleware.dispatch`: `/health` bypasses the limiter; otherwise the
client's timestamps are pruned to the last 60 seconds and stored back, the
request is rejected when `limit_per_minute` or more remain, and the current time
is appended otherwise. -/
def rlDispatch (limit : Nat) (st : String → List Int) (clientIp path : String)
    (now : Int) : (String → List Int) × RLOutcome :=
  if path = "/health" then (st, .forwarded)
  else
    let pruned := (st clientIp).filter (fun t => now - t < 60)
    if limit ≤ pruned.length then
      (updFun st clientIp pruned, .tooMany 429 "Too many requests")
    else
      (updFun st clientIp (pruned ++ [now]), .forwarded)

/-! ### S3 sync service (`services/s3_sync_service.py`)

A stored file entry is a JSON object; its scalar keys form `FileCore` and the
optional `versions` key holds the recorded history (entries written by
`scan_and_sync_submission` have no `versions` key, hence the `Option`).
`s3_file_links` is a category-keyed dictionary of entry lists, and the database
is a map from `submission_id` to the stored record.  `datetime.utcnow()` is the
explicit pair `now` (ISO string) and `nowTs` (integer timestamp). -/

/-- Scalar fields of a file entry (a file entry minus its `versions` key). -/
structure FileCore where
  original_name : String
  s3_key : String
  url : String
  updated_at : Option String := none
  created_at : Option String := none
  last_modified : Option String := none
  size : Option Nat := none
  content_type : Option String := none
  version : Option String := none
deriving DecidableEq

/-- A stored file entry: scalar fields plus the optional `versions` history. -/
structure FileRec where
  core : FileCore
  versions : Option (List FileCore) := none
deriving DecidableEq

/-- A stored user-submission row: `s3_file_links` and `document_names` are
nullable JSON columns (the code reads them as `submission.x or default`). -/
structure Submission where
  s3_file_links : Option (String → Option (List FileRec)) := none
  document_names : Option (List String) := none

/-- The `file_info` argument of `sync_file_changes`: a dictionary whose keys may
be absent. -/
structure FileInfo where
  filename : Option String := none
  s3_key : Option String := none
  category : Option String := none
  size : Option Nat := none
  content_type : Option String := none
  version : Option String := none

/-- The result dictionaries of the sync service (keys not fixed by any claim,
such as `file_count` of `scan_and_sync_submission`, are omitted). -/
structure SyncResult where
  status : String
  message : String
  filename : Option String := none
  s3_key : Option String := none
  url : Option String := none
  version : Option String := none
deriving DecidableEq

/-- The empty `s3_file_links` dictionary. -/
def emptyLinks : String → Option (List FileRec) := fun _ => none

/-- Placeholder entry for total indexing (never read on the paths used). -/
def emptyRec : FileRec :=
  { core := { original_name := "", s3_key := "", url := "" } }

/-- The `s3_file_links` dictionary of a stored record (`submission.s3_file_links or` empty). -/
def linksOf (sub : Submission) : String → Option (List FileRec) :=
  match sub.s3_file_links with
  | some m => m
  | none => emptyLinks

/-- First entry of a category whose `original_name` equals `name`. -/
def findFile (links : String → Option (List FileRec)) (category name : String) :
    Option FileRec :=
  ((links category).getD []).find? (fun fd => fd.core.original_name == name)

/-- Index of the first entry matching `p` (the `for idx, file_data in enumerate`
loop of `sync_file_changes`). -/
def firstMatchIdx {α : Type} (p : α → Bool) : List α → Option Nat
  | [] => none
  | x :: xs => if p x then some 0 else (firstMatchIdx p xs).map (· + 1)

/-- URL built for a key: `https://{bucket}.s3.amazonaws.com/{s3_key}`. -/
def s3Url (bucket s3_key : String) : String :=
  "https://" ++ bucket ++ ".s3.amazonaws.com/" ++ s3_key

/-- The generated version tag `v{int(datetime.utcnow().timestamp())}` unless a
`version` key was passed. -/
def versionTag (nowTs : Nat) (fi : FileInfo) : String :=
  match fi.version with
  | some v => v
  | none => "v" ++ toString nowTs

/-- The `updated_file_info` dictionary applied over an existing entry's scalar
fields (`existing_file.update(updated_file_info)`): `original_name`, `s3_key`,
`url`, `updated_at` and `version` are always overwritten, `size` and
`content_type` only when present in `file_info`. -/
def mkUpdatedCore (bucket now : String) (nowTs : Nat) (filename s3_key : String)
    (fi : FileInfo) (c : FileCore) : FileCore :=
  { c with
    original_name := filename
    s3_key := s3_key
    url := s3Url bucket s3_key
    updated_at := some now
    size := match fi.size with | some n => some n | none => c.size
    content_type := match fi.content_type with | some t => some t | none => c.content_type
    version := some (versionTag nowTs fi) }

/-- The `updated_file_info` dictionary as a fresh entry's scalar fields, with the
`created_at` stamp added by the add branch. -/
def mkNewCore (bucket now : String) (nowTs : Nat) (filename s3_key : String)
    (fi : FileInfo) : FileCore :=
  { original_name := filename
    s3_key := s3_key
    url := s3Url bucket s3_key
    updated_at := some now
    created_at := some now
    size := fi.size
    content_type := fi.content_type
    version := some (versionTag nowTs fi) }

/-- `S3SyncService.sync_file_changes` (lines 23-158).  Returns the updated
database map together with the result dictionary; error returns leave the
database untouched (no `repo.update` is reached). -/
def sync_file_changes (bucket now : String) (nowTs : Nat)
    (db : String → Option Submission) (submission_id : String) (file_info : FileInfo) :
    (String → Option Submission) × SyncResult :=
  match db submission_id with
  | none =>
    (db, { status := "error", message := "Submission " ++ submission_id ++ " not found" })
  | some submission =>
    let links0 := linksOf submission
    let category := file_info.category.getD "files"
    let links1 := match links0 category with
      | none => updFun links0 category (some [])
      | some _ => links0
    if pyFalsyStr file_info.filename || pyFalsyStr file_info.s3_key then
      (db, { status := "error", message := "Missing required file information" })
    else
      let filename := file_info.filename.getD ""
      let s3_key := file_info.s3_key.getD ""
      let files := (links1 category).getD []
      let url := s3Url bucket s3_key
      match firstMatchIdx (fun fd => fd.core.original_name == filename) files with
      | some idx =>
        let existing := files.getD idx emptyRec
        let oldVersions := existing.versions.getD []
        let updatedRec : FileRec :=
          { core := mkUpdatedCore bucket now nowTs filename s3_key file_info existing.core
            versions := some (oldVersions ++ [existing.core]) }
        let links2 := updFun links1 category (some (files.set idx updatedRec))
        let sub2 := { submission with s3_file_links := some links2 }
        (updFun db submission_id (some sub2),
         { status := "success", message := "File updated successfully",
           filename := some filename, s3_key := some s3_key, url := some url,
           version := some (versionTag nowTs file_info) })
      | none =>
        let newRec : FileRec :=
          { core := mkNewCore bucket now nowTs filename s3_key file_info
            versions := some [] }
        let links2 := updFun links1 category (some (files ++ [newRec]))
        let docs := submission.document_names.getD []
        let docs2 := if filename ∈ docs then docs else docs ++ [filename]
        let sub2 := { submission with s3_file_links := some links2,
                                      document_names := some docs2 }
        (updFun db submission_id (some sub2),
         { status := "success", message := "File added successfully",
           filename := some filename, s3_key := some s3_key, url := some url,
           version := some (versionTag nowTs file_info) })

/-- `S3SyncService.delete_file_from_db` (lines 236-314): removes every entry of
the category whose `original_name` equals `filename`, and the first occurrence
of `filename` from `document_names`. -/
def delete_file_from_db (db : String → Option Submission)
    (submission_id filename category : String) :
    (String → Option Submission) × SyncResult :=
  match db submission_id with
  | none =>
    (db, { status := "error", message := "Submission " ++ submission_id ++ " not found" })
  | some submission =>
    let links0 := linksOf submission
    match links0 category with
    | none =>
      (db, { status := "error", message := "Category " ++ category ++ " not found" })
    | some files =>
      let found := files.any (fun fd => fd.core.original_name == filename)
      let updated_files := files.filter (fun fd => !(fd.core.original_name == filename))
      if !found then
        (db, { status := "error", message := "File " ++ filename ++ " not found" })
      else
        let links2 := updFun links0 category (some updated_files)
        let docs := submission.document_names.getD []
        let docs2 := docs.erase filename
        let sub2 := { submission with s3_file_links := some links2,
                                      document_names := some docs2 }
        (updFun db submission_id (some sub2),
         { status := "success", message := "File deleted successfully",
           filename := some filename })

/-- An S3 object returned by `list_objects_v2` (key and last-modified stamp). -/
structure S3Obj where
  key : String
  last_modified : String
deriving DecidableEq

/-- Insertion into a Python `set`, modelled with insertion order. -/
def pyInsert (l : List String) (x : String) : List String :=
  if x ∈ l then l else l ++ [x]

/-- `set(document_names)` modelled as first-occurrence deduplication. -/
def pySetOf (l : List String) : List String :=
  l.foldl pyInsert []

/-- One iteration of the `for obj in s3_objects` loop of
`scan_and_sync_submission`: keys ending in `/` are skipped, the prefix is
removed (Python `str.replace`), the first `/`-segment is the category when more
than one segment remains, and a fresh entry (without a `versions` key) is
appended to the category. -/
def scanStep (bucket pfx : String)
    (acc : (String → Option (List FileRec)) × List String) (obj : S3Obj) :
    (String → Option (List FileRec)) × List String :=
  if pyEndsWith obj.key "/" then acc
  else
    let path_parts := pySplit (pyReplace obj.key pfx "") "/"
    let category := if 1 < path_parts.length then path_parts.headD "" else "files"
    let filename :=
      if 1 < path_parts.length then String.intercalate "/" (path_parts.drop 1)
      else path_parts.headD ""
    let entry : FileRec :=
      { core := { original_name := filename, s3_key := obj.key,
                  url := s3Url bucket obj.key, last_modified := some obj.last_modified }
        versions := none }
    (updFun acc.1 category (some ((acc.1 category).getD [] ++ [entry])),
     pyInsert acc.2 filename)

/-- `S3SyncService.scan_and_sync_submission` (lines 316-422): rebuilds
`s3_file_links` from scratch out of the S3 listing (`contents = none` models a
response without a `Contents` key) and replaces the stored dictionary wholesale. -/
def scan_and_sync_submission (bucket base_path : String)
    (contents : Option (List S3Obj)) (db : String → Option Submission)
    (submission_id : String) : (String → Option Submission) × SyncResult :=
  let pfx := base_path ++ submission_id ++ "/"
  match contents with
  | none => (db, { status := "warning", message := "No files found in S3" })
  | some objs =>
    match db submission_id with
    | none =>
      (db, { status := "error", message := "Submission " ++ submission_id ++ " not found" })
    | some submission =>
      let docs := submission.document_names.getD []
      let acc := objs.foldl (scanStep bucket pfx) (emptyLinks, pySetOf docs)
      let sub2 := { submission with s3_file_links := some acc.1,
                                    document_names := some acc.2 }
      (updFun db submission_id (some sub2),
       { status := "success", message := "Files synchronized successfully" })

/-! ### Helper lemmas -/

theorem updFun_same {α : Type} (m : String → α) (k : String) (v : α) :
    updFun m k v k = v := by
  simp [updFun]

theorem updFun_ne {α : Type} (m : String → α) (k : String) (v : α) (q : String)
    (h : q ≠ k) : updFun m k v q = m q := by
  simp [updFun, h]

theorem firstMatchIdx_none_find? {α : Type} (p : α → Bool) :
    ∀ l : List α, firstMatchIdx p l = none → l.find? p = none := by
  intro l
  induction l with
  | nil => intro _; rfl
  | cons x xs ih =>
    intro h
    by_cases hx : p x
    · simp [firstMatchIdx, hx] at h
    · simp [firstMatchIdx, hx] at h
      rw [List.find?_cons_of_neg _ hx]
      exact ih h

theorem firstMatchIdx_spec {α : Type} (p : α → Bool) (d : α) :
    ∀ (l : List α) (i : Nat), firstMatchIdx p l = some i →
      i < l.length ∧ p (l.getD i d) = true ∧ l.find? p = some (l.getD i d) := by
  intro l
  induction l with
  | nil => intro i h; simp [firstMatchIdx] at h
  | cons x xs ih =>
    intro i h
    by_cases hx : p x
    · simp [firstMatchIdx, hx] at h
      subst h
      refine ⟨by simp, ?_, ?_⟩
      · simpa [List.getD_cons_zero] using hx
      · simp [List.getD_cons_zero, List.find?_cons_of_pos _ hx]
    · simp [firstMatchIdx, hx] at h
      rcases h with ⟨j, hj, hji⟩
      subst hji
      rcases ih j hj with ⟨h1, h2, h3⟩
      refine ⟨by simpa using Nat.succ_lt_succ h1, ?_, ?_⟩
      · simpa [List.getD_cons_succ] using h2
      · rw [List.find?_cons_of_neg _ hx, List.getD_cons_succ]
        exact h3

theorem find?_set_first {α : Type} (p : α → Bool) :
    ∀ (l : List α) (i : Nat) (a : α), firstMatchIdx p l = some i → p a = true →
      (l.set i a).find? p = some a := by
  intro l
  induction l with
  | nil => intro i a h _; simp [firstMatchIdx] at h
  | cons x xs ih =>
    intro i a h ha
    by_cases hx : p x
    · simp [firstMatchIdx, hx] at h
      subst h
      rw [List.set_cons_zero]
      exact List.find?_cons_of_pos _ ha
    · simp [firstMatchIdx, hx] at h
      rcases h with ⟨j, hj, hji⟩
      subst hji
      rw [List.set_cons_succ, List.find?_cons_of_neg _ hx]
      exact ih j a hj ha

theorem find?_set_not_matching {α : Type} (q : α → Bool) (d : α) :
    ∀ (l : List α) (i : Nat) (a : α), i < l.length → q (l.getD i d) = false →
      q a = false → (l.set i a).find? q = l.find? q := by
  intro l
  induction l with
  | nil => intro i a hlt _ _; simp at hlt
  | cons x xs ih =>
    intro i a hlt hq ha
    cases i with
    | zero =>
      rw [List.getD_cons_zero] at hq
      rw [List.set_cons_zero, List.find?_cons_of_neg _ (by simp [ha]),
        List.find?_cons_of_neg _ (by simp [hq])]
    | succ j =>
      rw [List.set_cons_succ]
      by_cases hx : q x
      · rw [List.find?_cons_of_pos _ hx, List.find?_cons_of_pos _ hx]
      · rw [List.find?_cons_of_neg _ hx, List.find?_cons_of_neg _ hx]
        exact ih j a (by simpa using hlt) (by simpa [List.getD_cons_succ] using hq) ha

theorem find?_append_some {α : Type} (q : α → Bool) :
    ∀ (l1 l2 : List α) (y : α), l1.find? q = some y → (l1 ++ l2).find? q = some y := by
  intro l1
  induction l1 with
  | nil => intro l2 y h; simp [List.find?] at h
  | cons x xs ih =>
    intro l2 y h
    by_cases hx : q x
    · rw [List.find?_cons_of_pos _ hx] at h
      rw [List.cons_append, List.find?_cons_of_pos _ hx]
      exact h
    · rw [List.find?_cons_of_neg _ hx] at h
      rw [List.cons_append, List.find?_cons_of_neg _ hx]
      exact ih l2 y h

theorem find?_append_none {α : Type} (q : α → Bool) :
    ∀ (l1 l2 : List α), l1.find? q = none → (l1 ++ l2).find? q = l2.find? q := by
  intro l1
  induction l1 with
  | nil => intro l2 _; simp
  | cons x xs ih =>
    intro l2 h
    by_cases hx : q x
    · rw [List.find?_cons_of_pos _ hx] at h
      exact absurd h (by simp)
    · rw [List.find?_cons_of_neg _ hx] at h
      rw [List.cons_append, List.find?_cons_of_neg _ hx]
      exact ih l2 h

theorem find?_filter_of_imp {α : Type} (q keep : α → Bool)
    (himp : ∀ a, q a = true → keep a = true) :
    ∀ l : List α, (l.filter keep).find? q = l.find? q := by
  intro l
  induction l with
  | nil => rfl
  | cons x xs ih =>
    by_cases hk : keep x
    · rw [List.filter_cons_of_pos hk]
      by_cases hq : q x
      · rw [List.find?_cons_of_pos _ hq, List.find?_cons_of_pos _ hq]
      · rw [List.find?_cons_of_neg _ hq, List.find?_cons_of_neg _ hq]
        exact ih
    · have hq : q x = false := by
        cases hqx : q x
        · rfl
        · exact absurd (himp x hqx) hk
      rw [List.filter_cons_of_neg hk, List.find?_cons_of_neg _ (by simp [hq])]
      exact ih

/-! ### Claim theorems: rate limiter -/

/-- C3: for every request whose path is not "/health", the rate limiter forwards
the request exactly when, after discarding timestamps older than 60 seconds,
strictly fewer than `limit_per_minute` remain for the client IP; on forwarding
the current time is appended to the pruned list; other IPs' state is untouched;
and "/health" requests are always forwarded with the state unchanged. -/
theorem rateLimit_dispatch_spec (limit : Nat) (st : String → List Int)
    (ip path : String) (now : Int) (hp : path ≠ "/health") :
    ((rlDispatch limit st ip path now).2 = .forwarded ↔
      ((st ip).filter (fun t => now - t < 60)).length < limit) ∧
    ((rlDispatch limit st ip path now).2 = .forwarded →
      (rlDispatch limit st ip path now).1 ip =
        (st ip).filter (fun t => now - t < 60) ++ [now]) ∧
    (∀ ip2, ip2 ≠ ip → (rlDispatch limit st ip path now).1 ip2 = st ip2) ∧
    rlDispatch limit st ip "/health" now = (st, RLOutcome.forwarded) := by
  have hhealth : rlDispatch limit st ip "/health" now = (st, RLOutcome.forwarded) := by
    simp [rlDispatch]
  by_cases hl : limit ≤ ((st ip).filter (fun t => now - t < 60)).length
  · have hd : rlDispatch limit st ip path now =
        (updFun st ip ((st ip).filter (fun t => now - t < 60)),
         RLOutcome.tooMany 429 "Too many requests") := by
      simp [rlDispatch, hp, hl]
    refine ⟨?_, ?_, ?_, hhealth⟩
    · rw [hd]
      constructor
      · intro h; simp at h
      · intro h; exact absurd h (by omega)
    · rw [hd]; intro h; simp at h
    · intro ip2 h2; rw [hd]; exact updFun_ne _ _ _ _ h2
  · have hd : rlDispatch limit st ip path now =
        (updFun st ip ((st ip).filter (fun t => now - t < 60) ++ [now]),
         RLOutcome.forwarded) := by
      simp [rlDispatch, hp, hl]
    refine ⟨?_, ?_, ?_, hhealth⟩
    · rw [hd]
      constructor
      · intro _; omega
      · intro _; rfl
    · rw [hd]; intro _; exact updFun_same _ _ _
    · intro ip2 h2; rw [hd]; exact updFun_ne _ _ _ _ h2

/-- Witness for C3 at a concrete request. -/
theorem rateLimit_dispatch_spec_witness :
    ("/api/x" : String) ≠ "/health" ∧
    ((rlDispatch 2 (fun _ => []) "1.2.3.4" "/api/x" 100).2 = .forwarded ↔
      (((fun _ => ([] : List Int)) "1.2.3.4").filter
        (fun t => (100 : Int) - t < 60)).length < 2) :=
  ⟨by decide,
   (rateLimit_dispatch_spec 2 (fun _ => []) "1.2.3.4" "/api/x" 100 (by decide)).1⟩

/-- C4: a request from an IP whose pruned window already holds
`limit_per_minute` or more timestamps gets the 429 "Too many requests"
value back instead of the handler being invoked. -/
theorem rateLimit_reject_429 (limit : Nat) (st : String → List Int) (ip path : String)
    (now : Int) (hp : path ≠ "/health")
    (hl : limit ≤ ((st ip).filter (fun t => now - t < 60)).length) :
    (rlDispatch limit st ip path now).2 = .tooMany 429 "Too many requests" := by
  simp [rlDispatch, hp, hl]

/-- Witness for C4: one recent timestamp with limit 1. -/
theorem rateLimit_reject_429_witness :
    (rlDispatch 1 (updFun (fun _ => []) "ip" [90]) "ip" "/api/x" 100).2 =
      .tooMany 429 "Too many requests" :=
  rateLimit_reject_429 1 (updFun (fun _ => []) "ip" [90]) "ip" "/api/x" 100
    (by decide) (by decide)

/-- C9: if every IP's stored list has at most `limit_per_minute` entries, this
still holds after any dispatch: a rejected request stores only the pruned list
and a forwarded one appends to a list strictly below the limit. -/
theorem rateLimit_state_bounded (limit : Nat) (st : String → List Int)
    (clientIp path : String) (now : Int)
    (hb : ∀ ip, (st ip).length ≤ limit) :
    ∀ ip, ((rlDispatch limit st clientIp path now).1 ip).length ≤ limit := by
  intro ip
  by_cases hp : path = "/health"
  · simpa [rlDispatch, hp] using hb ip
  · by_cases hl : limit ≤ ((st clientIp).filter (fun t => now - t < 60)).length
    · have hd : (rlDispatch limit st clientIp path now).1 =
          updFun st clientIp ((st clientIp).filter (fun t => now - t < 60)) := by
        simp [rlDispatch, hp, hl]
      rw [hd]
      by_cases hip : ip = clientIp
      · subst hip
        rw [updFun_same]
        exact le_trans (List.length_filter_le _ _) (hb ip)
      · rw [updFun_ne _ _ _ _ hip]; exact hb ip
    · have hd : (rlDispatch limit st clientIp path now).1 =
          updFun st clientIp ((st clientIp).filter (fun t => now - t < 60) ++ [now]) := by
        simp [rlDispatch, hp, hl]
      rw [hd]
      by_cases hip : ip = clientIp
      · subst hip
        rw [updFun_same, List.length_append]
        simp only [List.length_singleton]
        omega
      · rw [updFun_ne _ _ _ _ hip]; exact hb ip

/-- Witness for C9 starting from the empty state. -/
theorem rateLimit_state_bounded_witness :
    ((rlDispatch 3 (fun _ => []) "ip" "/api/x" 100).1 "ip").length ≤ 3 :=
  rateLimit_state_bounded 3 (fun _ => []) "ip" "/api/x" 100 (fun _ => by simp) "ip"

/-! ### Claim theorems: get_current_user -/

/-- C7: for a bearer token, `get_current_user` returns the decoded payload when
decoding succeeds and the `exp` claim lies in the future, and raises a 401
`HTTPException` when decoding fails or the `exp` claim lies in the past. -/
theorem get_current_user_spec (decode : String → Except String Payload)
    (now : Int) (tok : String) :
    (∀ e, decode tok = .error e →
      get_current_user decode now tok = .httpError 401 "Invalid authentication credentials") ∧
    (∀ p ex, decode tok = .ok p → p.exp = some ex →
      (now < ex → get_current_user decode now tok = .ok p) ∧
      (ex < now → get_current_user decode now tok = .httpError 401 "Token has expired")) := by
  constructor
  · intro e he
    simp [get_current_user, he]
  · intro p ex hp hex
    constructor
    · intro h
      have hlt : ¬ ex < now := by omega
      simp [get_current_user, hp, hex, hlt]
    · intro h
      simp [get_current_user, hp, hex, h]

/-- Witness for C7: a valid token with a future expiry is returned. -/
theorem get_current_user_spec_witness :
    get_current_user
      (fun t => if t = "good" then Except.ok { exp := some 100, username := "u" }
                else Except.error "bad") 50 "good" =
      .ok { exp := some 100, username := "u" } :=
  ((get_current_user_spec
      (fun t => if t = "good" then Except.ok { exp := some 100, username := "u" }
                else Except.error "bad") 50 "good").2
    { exp := some 100, username := "u" } 100 rfl rfl).1 (by decide)

/-! ### Claim theorems: AuthMiddleware public paths -/

/-- C2: with the public path list registered in `main.py`, which contains "/",
prefix matching classifies every request path that begins with "/" as public,
so `dispatch` forwards every request without touching the API-key or JWT
checks; the 403 and 401 branches are unreachable. -/
theorem authMiddleware_all_public (apiKey : String)
    (decode : String → Except String Payload) (now : Int) (req : Request)
    (hpath : pyStartsWith req.path "/" = true) :
    authDispatch { public_paths := mainPublicPaths, apiKey := apiKey } decode now req =
      .next none := by
  unfold authDispatch
  by_cases hm : req.method = "OPTIONS"
  · simp [hm]
  · have hany : mainPublicPaths.any (fun p => pyStartsWith req.path p) = true :=
      List.any_eq_true.mpr ⟨"/", by simp [mainPublicPaths], hpath⟩
    simp [hm, hany]

/-- Witness for C2: a GET request to a protected-looking path is forwarded. -/
theorem authMiddleware_all_public_witness :
    pyStartsWith "/api/customers" "/" = true ∧
    authDispatch { public_paths := mainPublicPaths, apiKey := "k" }
      (fun _ => Except.error "bad") 0
      { method := "GET", path := "/api/customers", xApiKey := none,
        authorization := none } = .next none :=
  ⟨by decide,
   authMiddleware_all_public "k" (fun _ => Except.error "bad") 0
     { method := "GET", path := "/api/customers", xApiKey := none,
       authorization := none } (by decide)⟩

/-! ### Claim theorems: AuthMiddleware protected paths -/

/-- Reduction of `authDispatch` past the OPTIONS, public-path, API-key and
header-format checks, down to the JWT stage. -/
theorem authDispatch_jwt_stage (cfg : AuthConfig)
    (decode : String → Except String Payload) (now : Int) (req : Request)
    (h : String)
    (hm : req.method ≠ "OPTIONS")
    (hpub : cfg.public_paths.any (fun p => pyStartsWith req.path p) = false)
    (hkey : cfg.apiKey ≠ "")
    (hk : req.xApiKey = some cfg.apiKey)
    (hauth : req.authorization = some h) (hne0 : h ≠ "")
    (hlen : ¬ (pySplit h "Bearer ").length < 2) :
    authDispatch cfg decode now req =
      match decode ((pySplit h "Bearer ").getD 1 "") with
      | .error e => .response 401 ("Unauthorized: Invalid JWT token - " ++ e)
      | .ok payload =>
        match payload.exp with
        | none => .response 401 "Unauthorized: Error processing JWT token - TypeError"
        | some e =>
          if e < now then .response 401 "Unauthorized: Token has expired"
          else .next (some payload) := by
  simp [authDispatch, hm, hpub, hk, hkey, pyFalsyStr, hauth, hne0, hlen]

/-- C1: for a non-OPTIONS request to a non-public path (given a non-empty
configured API key), a missing or different `X-API-Key` yields the 403 response
without invoking the handler; with a matching key, a missing `Authorization`
header, a header without `"Bearer "`, a token that fails decoding, or an
expired token yields a 401 response; and the handler runs only when both checks
pass, with the decoded payload stored into `request.state.user`. -/
theorem authMiddleware_protected_spec
    (cfg : AuthConfig) (decode : String → Except String Payload) (now : Int)
    (req : Request)
    (hm : req.method ≠ "OPTIONS")
    (hpub : cfg.public_paths.any (fun p => pyStartsWith req.path p) = false)
    (hkey : cfg.apiKey ≠ "") :
    (req.xApiKey ≠ some cfg.apiKey →
      authDispatch cfg decode now req = .response 403 "Unauthorized: Invalid API key") ∧
    (req.xApiKey = some cfg.apiKey →
      (pyFalsyStr req.authorization = true →
        authDispatch cfg decode now req = .response 401 "Unauthorized: Missing JWT token") ∧
      (∀ h, req.authorization = some h → h ≠ "" →
        ((pySplit h "Bearer ").length < 2 →
          authDispatch cfg decode now req =
            .response 401 "Unauthorized: Invalid authorization format") ∧
        (¬ (pySplit h "Bearer ").length < 2 →
          (∀ e, decode ((pySplit h "Bearer ").getD 1 "") = .error e →
            authDispatch cfg decode now req =
              .response 401 ("Unauthorized: Invalid JWT token - " ++ e)) ∧
          (∀ p ex, decode ((pySplit h "Bearer ").getD 1 "") = .ok p →
            p.exp = some ex → ex < now →
            authDispatch cfg decode now req =
              .response 401 "Unauthorized: Token has expired")))) ∧
    (∀ u, authDispatch cfg decode now req = .next u →
      req.xApiKey = some cfg.apiKey ∧
      ∃ h p ex, req.authorization = some h ∧
        decode ((pySplit h "Bearer ").getD 1 "") = Except.ok p ∧
        p.exp = some ex ∧ ¬ ex < now ∧ u = some p) := by
  refine ⟨?_, ?_, ?_⟩
  · intro hne
    have hbne : (req.xApiKey != some cfg.apiKey) = true := bne_iff_ne.mpr hne
    simp [authDispatch, hm, hpub, hbne]
  · intro hk
    refine ⟨?_, ?_⟩
    · intro hfal
      have hg : (pyFalsyStr req.xApiKey || req.xApiKey != some cfg.apiKey) = false := by
        rw [hk]; simp [pyFalsyStr, hkey]
      simp [authDispatch, hm, hpub, hg, hfal]
    · intro h hauth hne0
      refine ⟨?_, ?_⟩
      · intro hlen
        simp [authDispatch, hm, hpub, hk, hkey, pyFalsyStr, hauth, hne0, hlen]
      · intro hlen
        refine ⟨?_, ?_⟩
        · intro e hdec
          rw [authDispatch_jwt_stage cfg decode now req h hm hpub hkey hk hauth hne0 hlen,
            hdec]
        · intro p ex hdec hex hlt
          rw [authDispatch_jwt_stage cfg decode now req h hm hpub hkey hk hauth hne0 hlen,
            hdec]
          simp [hex, hlt]
  · intro u hnext
    by_cases hk : req.xApiKey = some cfg.apiKey
    · cases hauth : req.authorization with
      | none =>
        simp [authDispatch, hm, hpub, hk, hkey, pyFalsyStr, hauth] at hnext
      | some h =>
        by_cases hne0 : h = ""
        · subst hne0
          simp [authDispatch, hm, hpub, hk, hkey, pyFalsyStr, hauth] at hnext
        · by_cases hlen : (pySplit h "Bearer ").length < 2
          · simp [authDispatch, hm, hpub, hk, hkey, pyFalsyStr, hauth, hne0, hlen] at hnext
          · rw [authDispatch_jwt_stage cfg decode now req h hm hpub hkey hk hauth hne0
              hlen] at hnext
            cases hdec : decode ((pySplit h "Bearer ").getD 1 "") with
            | error e =>
              rw [hdec] at hnext
              simp at hnext
            | ok p =>
              rw [hdec] at hnext
              cases hex : p.exp with
              | none => simp [hex] at hnext
              | some ex =>
                by_cases hlt : ex < now
                · simp [hex, hlt] at hnext
                · simp [hex, hlt] at hnext
                  exact ⟨hk, h, p, ex, rfl, hdec, hex, hlt, by simp [hnext]⟩
    · have hbne : (req.xApiKey != some cfg.apiKey) = true := bne_iff_ne.mpr hk
      simp [authDispatch, hm, hpub, hbne] at hnext

/-- Witness for C1: a request without an API key gets the 403 response. -/
theorem authMiddleware_protected_spec_witness :
    (none : Option String) ≠ some "k" ∧
    authDispatch { public_paths := ["/health"], apiKey := "k" }
      (fun _ => Except.error "bad") 0
      { method := "GET", path := "/api/customers", xApiKey := none,
        authorization := none } = .response 403 "Unauthorized: Invalid API key" :=
  ⟨by decide,
   (authMiddleware_protected_spec { public_paths := ["/health"], apiKey := "k" }
      (fun _ => Except.error "bad") 0
      { method := "GET", path := "/api/customers", xApiKey := none,
        authorization := none }
      (by decide) (by decide) (by decide)).1 (by decide)⟩

/-- C10: a well-signed token without an `exp` claim makes the expiry comparison
raise `TypeError`: `get_current_user` ends in the uncaught `TypeError` (only
`jwt.PyJWTError` is caught there), while `AuthMiddleware.dispatch` catches it in
its generic `except Exception` clause and returns a 401 response. -/
theorem missing_exp_typeError
    (cfg : AuthConfig) (decode : String → Except String Payload) (now : Int)
    (req : Request) (tok h : String) (p : Payload)
    (hm : req.method ≠ "OPTIONS")
    (hpub : cfg.public_paths.any (fun pp => pyStartsWith req.path pp) = false)
    (hkey : cfg.apiKey ≠ "")
    (hx : req.xApiKey = some cfg.apiKey)
    (hauth : req.authorization = some h)
    (hsplit : pySplit h "Bearer " = ["", tok])
    (hdec : decode tok = Except.ok p)
    (hexp : p.exp = none) :
    get_current_user decode now tok = .typeError ∧
    authDispatch cfg decode now req =
      .response 401 "Unauthorized: Error processing JWT token - TypeError" := by
  have hne0 : h ≠ "" := by
    intro he
    rw [he] at hsplit
    have hemp : pySplit "" "Bearer " = [""] := by decide
    rw [hemp] at hsplit
    simp at hsplit
  have hlen : ¬ (pySplit h "Bearer ").length < 2 := by
    rw [hsplit]; simp
  have htok : (pySplit h "Bearer ").getD 1 "" = tok := by
    rw [hsplit]; rfl
  constructor
  · simp [get_current_user, hdec, hexp]
  · rw [authDispatch_jwt_stage cfg decode now req h hm hpub hkey hx hauth hne0 hlen,
      htok, hdec]
    simp [hexp]

/-- Witness for C10 with a concrete request and token. -/
theorem missing_exp_typeError_witness :
    pySplit "Bearer tok" "Bearer " = ["", "tok"] ∧
    get_current_user
      (fun t => if t = "tok" then Except.ok { exp := none, username := "u" }
                else Except.error "bad") 50 "tok" = .typeError ∧
    authDispatch { public_paths := ["/health"], apiKey := "k" }
      (fun t => if t = "tok" then Except.ok { exp := none, username := "u" }
                else Except.error "bad") 50
      { method := "GET", path := "/api/customers", xApiKey := some "k",
        authorization := some "Bearer tok" } =
      .response 401 "Unauthorized: Error processing JWT token - TypeError" := by
  refine ⟨by decide, ?_⟩
  exact missing_exp_typeError { public_paths := ["/health"], apiKey := "k" }
    (fun t => if t = "tok" then Except.ok { exp := none, username := "u" }
              else Except.error "bad") 50
    { method := "GET", path := "/api/customers", xApiKey := some "k",
      authorization := some "Bearer tok" } "tok" "Bearer tok"
    { exp := none, username := "u" }
    (by decide) (by decide) (by decide) rfl rfl (by decide) rfl rfl

/-! ### Claim theorems: S3 sync service -/

theorem updFun_updFun {α : Type} (m : String → α) (k : String) (a v : α) :
    updFun (updFun m k a) k v = updFun m k v := by
  funext q
  by_cases h : q = k <;> simp [updFun, h]

theorem pyFalsyStr_eq_false (o : Option String) (h : pyFalsyStr o = false) :
    ∃ s, o = some s ∧ s ≠ "" := by
  cases o with
  | none => simp [pyFalsyStr] at h
  | some s =>
    refine ⟨s, rfl, ?_⟩
    simpa [pyFalsyStr] using h

/-- Branch equation: `sync_file_changes` when the submission exists, the file
information is complete, and an entry with the same `original_name` sits at
index `idx` of the category. -/
theorem sync_file_changes_update_eq
    (bucket now : String) (nowTs : Nat) (db : String → Option Submission)
    (sid : String) (fi : FileInfo) (submission : Submission)
    (filename s3_key : String) (fs : List FileRec) (idx : Nat)
    (hdb : db sid = some submission)
    (hfn : fi.filename = some filename) (hfn2 : filename ≠ "")
    (hsk : fi.s3_key = some s3_key) (hsk2 : s3_key ≠ "")
    (h0 : linksOf submission (fi.category.getD "files") = some fs)
    (hidx : firstMatchIdx (fun fd => fd.core.original_name == filename) fs = some idx) :
    sync_file_changes bucket now nowTs db sid fi =
      (updFun db sid (some { submission with
        s3_file_links := some (updFun (linksOf submission) (fi.category.getD "files")
          (some (fs.set idx
            { core := mkUpdatedCore bucket now nowTs filename s3_key fi
                (fs.getD idx emptyRec).core
              versions := some ((fs.getD idx emptyRec).versions.getD [] ++
                [(fs.getD idx emptyRec).core]) }))) }),
       { status := "success", message := "File updated successfully",
         filename := some filename, s3_key := some s3_key,
         url := some (s3Url bucket s3_key), version := some (versionTag nowTs fi) }) := by
  have hff : pyFalsyStr (some filename) = false := by simp [pyFalsyStr, hfn2]
  have hfs2 : pyFalsyStr (some s3_key) = false := by simp [pyFalsyStr, hsk2]
  simp [sync_file_changes, hdb, hff, hfs2, h0, hfn, hsk, hidx]

/-- Branch equation: `sync_file_changes` when the submission exists, the file
information is complete, and no entry of the category matches the filename. -/
theorem sync_file_changes_add_eq
    (bucket now : String) (nowTs : Nat) (db : String → Option Submission)
    (sid : String) (fi : FileInfo) (submission : Submission)
    (filename s3_key : String)
    (hdb : db sid = some submission)
    (hfn : fi.filename = some filename) (hfn2 : filename ≠ "")
    (hsk : fi.s3_key = some s3_key) (hsk2 : s3_key ≠ "")
    (hnone : firstMatchIdx (fun fd => fd.core.original_name == filename)
      ((linksOf submission (fi.category.getD "files")).getD []) = none) :
    sync_file_changes bucket now nowTs db sid fi =
      (updFun db sid (some { submission with
        s3_file_links := some (updFun (linksOf submission) (fi.category.getD "files")
          (some ((linksOf submission (fi.category.getD "files")).getD [] ++
            [{ core := mkNewCore bucket now nowTs filename s3_key fi,
               versions := some [] }]))),
        document_names := some (if filename ∈ submission.document_names.getD []
          then submission.document_names.getD []
          else submission.document_names.getD [] ++ [filename]) }),
       { status := "success", message := "File added successfully",
         filename := some filename, s3_key := some s3_key,
         url := some (s3Url bucket s3_key), version := some (versionTag nowTs fi) }) := by
  have hff : pyFalsyStr (some filename) = false := by simp [pyFalsyStr, hfn2]
  have hfs2 : pyFalsyStr (some s3_key) = false := by simp [pyFalsyStr, hsk2]
  cases h0 : linksOf submission (fi.category.getD "files") with
  | some fs =>
    rw [h0] at hnone
    simp only [Option.getD_some] at hnone
    simp [sync_file_changes, hdb, hff, hfs2, h0, hfn, hsk, hnone]
  | none =>
    rw [h0] at hnone
    simp [sync_file_changes, hdb, hff, hfs2, h0, hfn, hsk, firstMatchIdx,
      updFun_same, updFun_updFun]

/-- Branch equation: `delete_file_from_db` when the submission, category and a
matching entry all exist. -/
theorem delete_file_from_db_eq
    (db : String → Option Submission) (sid filename category : String)
    (submission : Submission) (fs : List FileRec)
    (hdb : db sid = some submission)
    (h0 : linksOf submission category = some fs)
    (hfound : fs.any (fun fd => fd.core.original_name == filename) = true) :
    delete_file_from_db db sid filename category =
      (updFun db sid (some { submission with
        s3_file_links := some (updFun (linksOf submission) category
          (some (fs.filter (fun fd => !(fd.core.original_name == filename))))),
        document_names := some ((submission.document_names.getD []).erase filename) }),
       { status := "success", message := "File deleted successfully",
         filename := some filename }) := by
  simp [delete_file_from_db, hdb, h0, hfound]

/-- C8: `sync_file_changes` returns a dict with status "error" and leaves the
database untouched whenever the submission id does not resolve, or the file
information lacks a (non-empty) filename or s3_key. -/
theorem sync_file_changes_error_no_update
    (bucket now : String) (nowTs : Nat) (db : String → Option Submission)
    (submission_id : String) (file_info : FileInfo)
    (h : db submission_id = none ∨ pyFalsyStr file_info.filename = true ∨
      pyFalsyStr file_info.s3_key = true) :
    (sync_file_changes bucket now nowTs db submission_id file_info).1 = db ∧
    (sync_file_changes bucket now nowTs db submission_id file_info).2.status = "error" := by
  cases hdb : db submission_id with
  | none => simp [sync_file_changes, hdb]
  | some submission =>
    have hg : (pyFalsyStr file_info.filename || pyFalsyStr file_info.s3_key) = true := by
      rcases h with h | h | h
      · rw [hdb] at h; exact absurd h (by simp)
      · simp [h]
      · simp [h]
    simp [sync_file_changes, hdb, hg]

/-- Witness for C8: an unresolved submission id yields an error and no update. -/
theorem sync_file_changes_error_no_update_witness :
    ((fun _ => none : String → Option Submission) "s1" = none ∨
      pyFalsyStr (some "a.pdf") = true ∨ pyFalsyStr (none : Option String) = true) ∧
    (sync_file_changes "b" "T" 5 (fun _ => none) "s1"
      { filename := some "a.pdf" }).2.status = "error" :=
  ⟨Or.inl rfl,
   (sync_file_changes_error_no_update "b" "T" 5 (fun _ => none) "s1"
     { filename := some "a.pdf" } (Or.inl rfl)).2⟩

theorem linksOf_mk (m : String → Option (List FileRec)) (d : Option (List String)) :
    linksOf { s3_file_links := some m, document_names := d } = m := rfl

/-- C5: with a stored submission and complete file information, when the
category already holds an entry whose `original_name` equals the filename,
`sync_file_changes` pushes that entry's scalar fields (its copy minus
`versions`) onto its versions list, which grows by exactly one element,
overwrites the entry's scalar fields with the new information in place, and
reports "File updated successfully"; when no entry matches, a fresh entry with
an empty versions list and a `created_at` stamp is appended to the category,
the filename is added to `document_names` when absent, and the result reports
"File added successfully". -/
theorem sync_file_changes_update_add_spec
    (bucket now : String) (nowTs : Nat) (db : String → Option Submission)
    (sid : String) (fi : FileInfo) (submission : Submission)
    (filename s3_key : String)
    (hdb : db sid = some submission)
    (hfn : fi.filename = some filename) (hfn2 : filename ≠ "")
    (hsk : fi.s3_key = some s3_key) (hsk2 : s3_key ≠ "") :
    (∀ idx fs, linksOf submission (fi.category.getD "files") = some fs →
      firstMatchIdx (fun fd => fd.core.original_name == filename) fs = some idx →
      (sync_file_changes bucket now nowTs db sid fi).2 =
        { status := "success", message := "File updated successfully",
          filename := some filename, s3_key := some s3_key,
          url := some (s3Url bucket s3_key), version := some (versionTag nowTs fi) } ∧
      ∃ sub2, (sync_file_changes bucket now nowTs db sid fi).1 sid = some sub2 ∧
        linksOf sub2 (fi.category.getD "files") = some (fs.set idx
          { core := mkUpdatedCore bucket now nowTs filename s3_key fi
              (fs.getD idx emptyRec).core
            versions := some ((fs.getD idx emptyRec).versions.getD [] ++
              [(fs.getD idx emptyRec).core]) }) ∧
        findFile (linksOf sub2) (fi.category.getD "files") filename = some
          { core := mkUpdatedCore bucket now nowTs filename s3_key fi
              (fs.getD idx emptyRec).core
            versions := some ((fs.getD idx emptyRec).versions.getD [] ++
              [(fs.getD idx emptyRec).core]) } ∧
        ((fs.getD idx emptyRec).versions.getD [] ++
          [(fs.getD idx emptyRec).core]).length =
          ((fs.getD idx emptyRec).versions.getD []).length + 1) ∧
    (firstMatchIdx (fun fd => fd.core.original_name == filename)
        ((linksOf submission (fi.category.getD "files")).getD []) = none →
      (sync_file_changes bucket now nowTs db sid fi).2 =
        { status := "success", message := "File added successfully",
          filename := some filename, s3_key := some s3_key,
          url := some (s3Url bucket s3_key), version := some (versionTag nowTs fi) } ∧
      ∃ sub2, (sync_file_changes bucket now nowTs db sid fi).1 sid = some sub2 ∧
        linksOf sub2 (fi.category.getD "files") = some
          ((linksOf submission (fi.category.getD "files")).getD [] ++
            [{ core := mkNewCore bucket now nowTs filename s3_key fi,
               versions := some [] }]) ∧
        findFile (linksOf sub2) (fi.category.getD "files") filename = some
          { core := mkNewCore bucket now nowTs filename s3_key fi,
            versions := some [] } ∧
        sub2.document_names = some (if filename ∈ submission.document_names.getD []
          then submission.document_names.getD []
          else submission.document_names.getD [] ++ [filename])) := by
  constructor
  · intro idx fs h0 hidx
    rw [sync_file_changes_update_eq bucket now nowTs db sid fi submission filename
      s3_key fs idx hdb hfn hfn2 hsk hsk2 h0 hidx]
    refine ⟨rfl, ?_⟩
    refine ⟨_, updFun_same _ _ _, ?_, ?_, ?_⟩
    · simp [linksOf_mk, updFun_same]
    · simp only [findFile, linksOf_mk, updFun_same, Option.getD_some]
      exact find?_set_first _ fs idx _ hidx (by simp [mkUpdatedCore])
    · simp
  · intro hnone
    rw [sync_file_changes_add_eq bucket now nowTs db sid fi submission filename
      s3_key hdb hfn hfn2 hsk hsk2 hnone]
    refine ⟨rfl, ?_⟩
    refine ⟨_, updFun_same _ _ _, ?_, ?_, rfl⟩
    · simp [linksOf_mk, updFun_same]
    · simp only [findFile, linksOf_mk, updFun_same, Option.getD_some]
      rw [find?_append_none _ _ _ (firstMatchIdx_none_find? _ _ hnone)]
      simp [List.find?, mkNewCore]

/-- Concrete data shared by the sync-service witnesses. -/
def wCore0 : FileCore := { original_name := "a.pdf", s3_key := "k0", url := "u0" }

def wRec1 : FileRec :=
  { core := { original_name := "a.pdf", s3_key := "k1", url := "u1" },
    versions := some [wCore0] }

def wSub : Submission :=
  { s3_file_links := some (updFun emptyLinks "files" (some [wRec1])),
    document_names := some ["a.pdf"] }

def wDb : String → Option Submission := updFun (fun _ => none) "s1" (some wSub)

def wFi : FileInfo :=
  { filename := some "a.pdf", s3_key := some "k2", version := some "v2" }

/-- Witness for C5: updating `a.pdf` over a category with one matching entry. -/
theorem sync_update_add_witness :
    linksOf wSub (wFi.category.getD "files") = some [wRec1] ∧
    firstMatchIdx (fun fd => fd.core.original_name == "a.pdf") [wRec1] = some 0 ∧
    (sync_file_changes "b" "T" 7 wDb "s1" wFi).2 =
      { status := "success", message := "File updated successfully",
        filename := some "a.pdf", s3_key := some "k2",
        url := some (s3Url "b" "k2"), version := some (versionTag 7 wFi) } :=
  ⟨rfl, by decide,
   ((sync_file_changes_update_add_spec "b" "T" 7 wDb "s1" wFi wSub "a.pdf" "k2"
      rfl rfl (by decide) rfl (by decide)).1 0 [wRec1] rfl (by decide)).1⟩

theorem str_beq_false {a b : String} (h : a ≠ b) : (a == b) = false := by
  cases hbe : a == b
  · rfl
  · exact absurd (by simpa using hbe) h

theorem versions_mem_of_same_sub {sub sub2 : Submission} {c n : String}
    {fdOld fdNew : FileRec} (hss : sub2 = sub)
    (hOld : findFile (linksOf sub) c n = some fdOld)
    (hNew : findFile (linksOf sub2) c n = some fdNew) :
    ∀ v ∈ fdOld.versions.getD [], v ∈ fdNew.versions.getD [] := by
  subst hss
  rw [hOld] at hNew
  injection hNew with h
  subst h
  exact fun v hv => hv

theorem preserve_of_db_unchanged {db newDb : String → Option Submission}
    (heq : newDb = db) :
    ∀ k sub sub2 c n fdOld fdNew, db k = some sub → newDb k = some sub2 →
      findFile (linksOf sub) c n = some fdOld →
      findFile (linksOf sub2) c n = some fdNew →
      ∀ v ∈ fdOld.versions.getD [], v ∈ fdNew.versions.getD [] := by
  subst heq
  intro k sub sub2 c n fdOld fdNew hk hk2 hOld hNew
  rw [hk] at hk2
  injection hk2 with h
  exact versions_mem_of_same_sub h.symm hOld hNew

/-- C6 (amended): `sync_file_changes` and `delete_file_from_db` preserve
recorded version history: any entry (identified by its category and
`original_name`) present in the stored `s3_file_links` both before and after
the call keeps every element of its `versions` list.  `scan_and_sync_submission`
does not preserve history: it rebuilds `s3_file_links` from the S3 listing with
entries carrying no `versions` key (see the counterexample). -/
theorem sync_delete_preserve_versions
    (bucket now : String) (nowTs : Nat) (db : String → Option Submission)
    (sid : String) (fi : FileInfo) (sid2 fn cat : String) :
    (∀ k sub sub2 c n fdOld fdNew,
      db k = some sub →
      (sync_file_changes bucket now nowTs db sid fi).1 k = some sub2 →
      findFile (linksOf sub) c n = some fdOld →
      findFile (linksOf sub2) c n = some fdNew →
      ∀ v ∈ fdOld.versions.getD [], v ∈ fdNew.versions.getD []) ∧
    (∀ k sub sub2 c n fdOld fdNew,
      db k = some sub →
      (delete_file_from_db db sid2 fn cat).1 k = some sub2 →
      findFile (linksOf sub) c n = some fdOld →
      findFile (linksOf sub2) c n = some fdNew →
      ∀ v ∈ fdOld.versions.getD [], v ∈ fdNew.versions.getD []) := by
  constructor
  · cases hdb : db sid with
    | none =>
      apply preserve_of_db_unchanged
      simp [sync_file_changes, hdb]
    | some submission =>
      by_cases hg : (pyFalsyStr fi.filename || pyFalsyStr fi.s3_key) = true
      · apply preserve_of_db_unchanged
        simp [sync_file_changes, hdb, hg]
      · have hg2 : (pyFalsyStr fi.filename || pyFalsyStr fi.s3_key) = false := by
          cases hx : (pyFalsyStr fi.filename || pyFalsyStr fi.s3_key)
          · rfl
          · exact absurd hx hg
        rcases Bool.or_eq_false_iff.mp hg2 with ⟨hff, hfs⟩
        obtain ⟨filename, hfn, hfn2⟩ := pyFalsyStr_eq_false _ hff
        obtain ⟨s3_key, hsk, hsk2⟩ := pyFalsyStr_eq_false _ hfs
        cases hidx : firstMatchIdx (fun fd => fd.core.original_name == filename)
            ((linksOf submission (fi.category.getD "files")).getD []) with
        | none =>
          intro k sub sub2 c n fdOld fdNew hk hk2 hOld hNew v hv
          rw [sync_file_changes_add_eq bucket now nowTs db sid fi submission filename
            s3_key hdb hfn hfn2 hsk hsk2 hidx] at hk2
          dsimp only at hk2
          by_cases hksid : k = sid
          · subst hksid
            rw [updFun_same] at hk2
            injection hk2 with hsub2
            rw [hdb] at hk
            injection hk with hsub
            subst hsub
            subst hsub2
            by_cases hc : c = fi.category.getD "files"
            · subst hc
              simp only [findFile, linksOf_mk, updFun_same, Option.getD_some] at hNew
              simp only [findFile] at hOld
              rw [find?_append_some _ _ _ _ hOld] at hNew
              injection hNew with hfd
              subst hfd
              exact hv
            · simp only [findFile, linksOf_mk] at hNew
              rw [updFun_ne _ _ _ _ hc] at hNew
              simp only [findFile] at hOld
              rw [hOld] at hNew
              injection hNew with hfd
              subst hfd
              exact hv
          · rw [updFun_ne _ _ _ _ hksid] at hk2
            rw [hk] at hk2
            injection hk2 with hss
            exact versions_mem_of_same_sub hss.symm hOld hNew v hv
        | some idx =>
          cases h0 : linksOf submission (fi.category.getD "files") with
          | none =>
            rw [h0] at hidx
            simp [firstMatchIdx] at hidx
          | some fs =>
            rw [h0] at hidx
            simp only [Option.getD_some] at hidx
            intro k sub sub2 c n fdOld fdNew hk hk2 hOld hNew v hv
            rw [sync_file_changes_update_eq bucket now nowTs db sid fi submission
              filename s3_key fs idx hdb hfn hfn2 hsk hsk2 h0 hidx] at hk2
            dsimp only at hk2
            by_cases hksid : k = sid
            · subst hksid
              rw [updFun_same] at hk2
              injection hk2 with hsub2
              rw [hdb] at hk
              injection hk with hsub
              subst hsub
              subst hsub2
              by_cases hc : c = fi.category.getD "files"
              · subst hc
                simp only [findFile, linksOf_mk, updFun_same, Option.getD_some] at hNew
                simp only [findFile, h0, Option.getD_some] at hOld
                by_cases hn : n = filename
                · subst hn
                  obtain ⟨hlt, hp, hfind⟩ :=
                    firstMatchIdx_spec (fun fd => fd.core.original_name == n)
                      emptyRec fs idx hidx
                  rw [hfind] at hOld
                  injection hOld with hfdOld
                  rw [find?_set_first _ fs idx _ hidx (by simp [mkUpdatedCore])] at hNew
                  injection hNew with hfdNew
                  subst hfdNew
                  rw [← hfdOld] at hv
                  simpa using List.mem_append_left [(fs.getD idx emptyRec).core] hv
                · obtain ⟨hlt, hp, -⟩ :=
                    firstMatchIdx_spec (fun fd => fd.core.original_name == filename)
                      emptyRec fs idx hidx
                  have hname : (fs.getD idx emptyRec).core.original_name = filename := by
                    simpa using hp
                  have hfne : filename ≠ n := fun he => hn he.symm
                  have hq1 : ((fs.getD idx emptyRec).core.original_name == n) = false := by
                    rw [hname]
                    exact str_beq_false hfne
                  have hq2 : ((mkUpdatedCore bucket now nowTs filename s3_key fi
                      (fs.getD idx emptyRec).core).original_name == n) = false :=
                    str_beq_false hfne
                  rw [find?_set_not_matching _ emptyRec fs idx _ hlt hq1 hq2] at hNew
                  rw [hOld] at hNew
                  injection hNew with hfd
                  subst hfd
                  exact hv
              · simp only [findFile, linksOf_mk] at hNew
                rw [updFun_ne _ _ _ _ hc] at hNew
                simp only [findFile] at hOld
                rw [hOld] at hNew
                injection hNew with hfd
                subst hfd
                exact hv
            · rw [updFun_ne _ _ _ _ hksid] at hk2
              rw [hk] at hk2
              injection hk2 with hss
              exact versions_mem_of_same_sub hss.symm hOld hNew v hv
  · cases hdb : db sid2 with
    | none =>
      apply preserve_of_db_unchanged
      simp [delete_file_from_db, hdb]
    | some submission =>
      cases h0 : linksOf submission cat with
      | none =>
        apply preserve_of_db_unchanged
        simp [delete_file_from_db, hdb, h0]
      | some fs =>
        by_cases hfound : fs.any (fun fd => fd.core.original_name == fn) = true
        · intro k sub sub2 c n fdOld fdNew hk hk2 hOld hNew v hv
          rw [delete_file_from_db_eq db sid2 fn cat submission fs hdb h0 hfound] at hk2
          dsimp only at hk2
          by_cases hksid : k = sid2
          · subst hksid
            rw [updFun_same] at hk2
            injection hk2 with hsub2
            rw [hdb] at hk
            injection hk with hsub
            subst hsub
            subst hsub2
            by_cases hc : c = cat
            · subst hc
              simp only [findFile, linksOf_mk, updFun_same, Option.getD_some] at hNew
              simp only [findFile, h0, Option.getD_some] at hOld
              by_cases hn : n = fn
              · subst hn
                exfalso
                have hnone2 : (fs.filter (fun fd => !(fd.core.original_name == n))).find?
                    (fun fd => fd.core.original_name == n) = none := by
                  apply List.find?_eq_none.mpr
                  intro x hx
                  rcases List.mem_filter.mp hx with ⟨-, hkeep⟩
                  intro hqx
                  rw [hqx] at hkeep
                  simp at hkeep
                rw [hnone2] at hNew
                exact Option.noConfusion hNew
              · have himp : ∀ a : FileRec, (a.core.original_name == n) = true →
                    (!(a.core.original_name == fn)) = true := by
                  intro a hqa
                  have ha : a.core.original_name = n := by simpa using hqa
                  rw [ha, str_beq_false hn]
                  rfl
                rw [find?_filter_of_imp _ _ himp fs] at hNew
                rw [hOld] at hNew
                injection hNew with hfd
                subst hfd
                exact hv
            · simp only [findFile, linksOf_mk] at hNew
              rw [updFun_ne _ _ _ _ hc] at hNew
              simp only [findFile] at hOld
              rw [hOld] at hNew
              injection hNew with hfd
              subst hfd
              exact hv
          · rw [updFun_ne _ _ _ _ hksid] at hk2
            rw [hk] at hk2
            injection hk2 with hss
            exact versions_mem_of_same_sub hss.symm hOld hNew v hv
        · apply preserve_of_db_unchanged
          have hfound2 : fs.any (fun fd => fd.core.original_name == fn) = false := by
            cases hx : fs.any (fun fd => fd.core.original_name == fn)
            · rfl
            · exact absurd hx hfound
          simp [delete_file_from_db, hdb, h0, hfound2]

/-- Database state after the C6 witness update of `a.pdf`. -/
def wDb2 : String → Option Submission := (sync_file_changes "b" "T" 7 wDb "s1" wFi).1

def wSub2 : Submission :=
  match wDb2 "s1" with
  | some s => s
  | none => {}

def wRec2 : FileRec :=
  match findFile (linksOf wSub2) "files" "a.pdf" with
  | some r => r
  | none => emptyRec

/-- Witness for amended C6: after `sync_file_changes` updates `a.pdf`, the
previously recorded version is still in the entry's history. -/
theorem sync_delete_preserve_versions_witness :
    wDb "s1" = some wSub ∧
    wCore0 ∈ wRec1.versions.getD [] ∧
    wCore0 ∈ wRec2.versions.getD [] :=
  ⟨rfl, by decide,
   (sync_delete_preserve_versions "b" "T" 7 wDb "s1" wFi "x" "y" "z").1
     "s1" wSub wSub2 "files" "a.pdf" wRec1 wRec2 rfl rfl (by decide) (by decide)
     wCore0 (by decide)⟩

/-- Entry for `a.pdf` as rebuilt by `scan_and_sync_submission`: no versions key. -/
def cRecNew : FileRec :=
  { core := { original_name := "a.pdf", s3_key := "bp/s1/a.pdf",
              url := "https://b.s3.amazonaws.com/bp/s1/a.pdf",
              last_modified := some "t2" },
    versions := none }

/-- Database state after scanning submission `s1` whose S3 listing still holds
`a.pdf`. -/
def cDbAfter : String → Option Submission :=
  (scan_and_sync_submission "b" "bp/"
    (some [{ key := "bp/s1/a.pdf", last_modified := "t2" }]) wDb "s1").1

def cSubAfter : Submission :=
  match cDbAfter "s1" with
  | some s => s
  | none => {}

/-- Counterexample for C6 as stated: the entry for `a.pdf` is present in
`s3_file_links` both before and after `scan_and_sync_submission`, its versions
list holds `wCore0` before the call, yet after the call the rebuilt entry
carries no version history at all. -/
theorem scan_discards_versions_cex :
    findFile (linksOf wSub) "files" "a.pdf" = some wRec1 ∧
    wCore0 ∈ wRec1.versions.getD [] ∧
    cDbAfter "s1" = some cSubAfter ∧
    findFile (linksOf cSubAfter) "files" "a.pdf" = some cRecNew ∧
    wCore0 ∉ cRecNew.versions.getD [] :=
  ⟨by decide, by decide, rfl, by decide, by decide⟩
